import Mathlib

/-!
Shallow embedding of the incremental market-data ingestion engine of the
stock-market repository: the enhanced fetcher
(analytics/etl/enhanced_market_data_fetcher.py), the currency converter
(analytics/utils/currency_converter.py) and the database manager
(analytics/database/db_manager.py).

Modelling conventions:
* calendar dates are proleptic-Gregorian ordinals (natural numbers), exactly
  as Python datetime.date.toordinal computes them; adding one day is adding 1,
  and comparison of ISO date strings coincides with comparison of ordinals;
* prices are exact rationals; Python round(x, 2) is modelled by rounding
  x * 100 to the nearest integer (Mathlib round) and dividing by 100 — the
  claims settled here never depend on the tie-breaking direction of rounding;
* Python None / falsy tests on optional values are modelled on Option;
* external effects (the quote provider, the FX-rate provider, the wall clock)
  are explicit function arguments, and the calls a function makes to the rate
  provider are returned as an explicit call log;
* Python exceptions are modelled with explicit outcome types where a claim
  depends on them.
-/

namespace StockMarket

/-! ### Calendar ordinals (Python datetime.date.toordinal) -/

/-- Leap-year test of the proleptic Gregorian calendar. -/
def is_leap (y : ℕ) : Bool :=
  y % 4 == 0 && (y % 100 != 0 || y % 400 == 0)

/-- Number of days in the years strictly before year y
(Python datetime._days_before_year). -/
def days_before_year (y : ℕ) : ℕ :=
  (y - 1) * 365 + (y - 1) / 4 - (y - 1) / 100 + (y - 1) / 400

/-- Number of days in year y strictly before month m
(Python datetime._days_before_month). -/
def days_before_month (y m : ℕ) : ℕ :=
  (match m with
   | 1 => 0 | 2 => 31 | 3 => 59 | 4 => 90 | 5 => 120 | 6 => 151
   | 7 => 181 | 8 => 212 | 9 => 243 | 10 => 273 | 11 => 304 | _ => 334)
  + (if 2 < m && is_leap y then 1 else 0)

/-- Proleptic-Gregorian ordinal of a calendar date, as in Python
datetime.date.toordinal; day 1 is 0001-01-01. -/
def toordinal (y m d : ℕ) : ℕ :=
  days_before_year y + days_before_month y m + d

/-! ### Fetched bar series and the data quality gate
(EnhancedMarketDataFetcher.validate_data_quality) -/

/-- One row of the DataFrame returned by the quote provider: the five columns
the gate inspects.  A missing (NaN) cell is none. -/
structure Bar where
  open_ : Option ℚ
  high : Option ℚ
  low : Option ℚ
  close : Option ℚ
  volume : Option ℤ
deriving DecidableEq, Repr

/-- Count of missing cells in one projected column. -/
def count_missing (df : List Bar) (proj : Bar → Option ℚ) : ℕ :=
  (df.filter (fun b => (proj b).isNone)).length

/-- Count of missing cells in the volume column. -/
def count_missing_vol (df : List Bar) : ℕ :=
  (df.filter (fun b => b.volume.isNone)).length

/-- Issues recorded by the missing-value check: one issue per column that has
at least one null cell, in column order Open, High, Low, Close, Volume. -/
def missing_issues (df : List Bar) : List String :=
  ([("Open", count_missing df Bar.open_), ("High", count_missing df Bar.high),
    ("Low", count_missing df Bar.low), ("Close", count_missing df Bar.close),
    ("Volume", count_missing_vol df)]).filterMap
    (fun p => if p.2 > 0
      then some ("Missing " ++ toString p.2 ++ " values in " ++ p.1)
      else none)

/-- Count of strictly negative (non-null) cells in one price column; a null
cell compares as false, as NaN does in pandas. -/
def count_negative (df : List Bar) (proj : Bar → Option ℚ) : ℕ :=
  (df.filter (fun b => match proj b with | some x => decide (x < 0) | none => false)).length

/-- Issues recorded by the negative-price check over Open, High, Low, Close. -/
def negative_issues (df : List Bar) : List String :=
  ([("Open", count_negative df Bar.open_), ("High", count_negative df Bar.high),
    ("Low", count_negative df Bar.low), ("Close", count_negative df Bar.close)]).filterMap
    (fun p => if p.2 > 0
      then some ("Found " ++ toString p.2 ++ " negative prices in " ++ p.1)
      else none)

/-- Whether the single-day relative change of the closing price from prev to
curr exceeds 50 percent in absolute value, as pandas pct_change computes it
(a change from a zero price to a nonzero one is an infinite relative change,
hence counted; any comparison involving a missing value is false). -/
def extreme_move (prev curr : Option ℚ) : Bool :=
  match prev, curr with
  | some p, some c => if p = 0 then c != 0 else decide (|c / p - 1| > 1 / 2)
  | _, _ => false

/-- Count of extreme single-day close moves over consecutive rows. -/
def count_extreme : List Bar → ℕ
  | [] => 0
  | [_] => 0
  | a :: b :: rest =>
    (if extreme_move a.close b.close then 1 else 0) + count_extreme (b :: rest)

/-- Issues recorded by the extreme-move check; the check is only run when the
series has more than one row. -/
def extreme_issues (df : List Bar) : List String :=
  if df.length > 1 then
    let n := count_extreme df
    if n > 0 then ["Found " ++ toString n ++ " extreme price movements (>50%)"] else []
  else []

/-- Count of rows with exactly zero traded volume. -/
def count_zero_volume (df : List Bar) : ℕ :=
  (df.filter (fun b => b.volume == some 0)).length

/-- Issue recorded when more than half the rows have zero volume
(count > len * 0.5). -/
def volume_issues (df : List Bar) : List String :=
  let z := count_zero_volume df
  if 2 * z > df.length
  then ["High number of zero volume days: " ++ toString z]
  else []

/-- The data quality gate (EnhancedMarketDataFetcher.validate_data_quality):
an empty series fails at once with the single issue "No data received";
otherwise the four checks run in order, each appending its issues, and the
series is valid exactly when the collected issue list is empty. -/
def validate_data_quality (df : List Bar) : Bool × List String :=
  if df = [] then (false, ["No data received"])
  else
    let issues := missing_issues df ++ negative_issues df
      ++ extreme_issues df ++ volume_issues df
    (issues.isEmpty, issues)

/-! ### Fetch with retry (EnhancedMarketDataFetcher.fetch_market_data_with_retry) -/

/-- Retry bound configured in EnhancedMarketDataFetcher, self.max_retries. -/
def max_retries : ℕ := 3

/-- Inter-attempt delay in seconds, self.retry_delay. -/
def retry_delay : ℕ := 60

/-- Outcome of one call to the quote provider: either a raised transport
error or a returned (possibly empty) bar series. -/
inductive AttemptOutcome where
  | raised
  | returned (df : List Bar)
deriving DecidableEq, Repr

/-- Body of the retry loop: attempt is the current attempt index, fuel the
number of loop iterations still available (initially max_retries).  Returns
the fetched series (or none) together with the number of attempts consumed.
Mirrors the source line by line: a raised error or a quality failure falls
through to the next iteration (the final iteration returns None instead),
while a returned empty series returns None immediately. -/
def fetch_retry_go (provider : ℕ → AttemptOutcome) : ℕ → ℕ → Option (List Bar) × ℕ
  | _, 0 => (none, 0)
  | attempt, fuel + 1 =>
    match provider attempt with
    | .raised =>
      let r := fetch_retry_go provider (attempt + 1) fuel
      (r.1, r.2 + 1)
    | .returned df =>
      if df = [] then (none, 1)
      else if (validate_data_quality df).1 then (some df, 1)
      else
        let r := fetch_retry_go provider (attempt + 1) fuel
        (r.1, r.2 + 1)

/-- EnhancedMarketDataFetcher.fetch_market_data_with_retry: run the retry
loop for attempts 0 .. max_retries - 1. -/
def fetch_market_data_with_retry (provider : ℕ → AttemptOutcome) :
    Option (List Bar) × ℕ :=
  fetch_retry_go provider 0 max_retries

/-! ### Per-symbol incremental processing
(EnhancedMarketDataFetcher.process_symbol_incremental and
get_latest_data_date) -/

/-- The epoch start date of the full backfill, datetime(2021, 12, 1). -/
def epoch_start : ℕ := toordinal 2021 12 1

/-- Observable trace of processing one symbol: the computed fetch start
date, whether the quote provider was invoked, whether the trailing metrics
were recomputed and stored, and the boolean the method returns. -/
structure ProcessTrace where
  start_date : ℕ
  fetch_called : Bool
  metrics_computed : Bool
  success : Bool
deriving DecidableEq, Repr

/-- The watermark query (EnhancedMarketDataFetcher.get_latest_data_date):
SELECT MAX(date) over the stored bar dates of the symbol. -/
def get_latest_data_date (stored_dates : List ℕ) : Option ℕ :=
  stored_dates.max?

/-- EnhancedMarketDataFetcher.process_symbol_incremental, with the stored bar
dates of the symbol, the current clock date and the quote provider made
explicit.  With a watermark the start date is watermark + 1 and a start date
strictly after today returns success at once, before any fetch; without a
watermark the start date is the epoch 2021-12-01.  A failed fetch returns
failure; a successful fetch inserts the data and recomputes the metrics. -/
def process_symbol_incremental (stored_dates : List ℕ) (today : ℕ)
    (provider : ℕ → AttemptOutcome) : ProcessTrace :=
  match get_latest_data_date stored_dates with
  | some latest_date =>
    let start_date := latest_date + 1
    if start_date > today then
      ⟨start_date, false, false, true⟩
    else
      match (fetch_market_data_with_retry provider).1 with
      | none => ⟨start_date, true, false, false⟩
      | some _ => ⟨start_date, true, true, true⟩
  | none =>
    let start_date := epoch_start
    match (fetch_market_data_with_retry provider).1 with
    | none => ⟨start_date, true, false, false⟩
    | some _ => ⟨start_date, true, true, true⟩

/-! ### Currency converter (analytics/utils/currency_converter.py) -/

/-- One record of the price-data batch handed to the currency converter: a
Python dict whose entries may be absent or None.  The four settlement-currency
fields start out absent (none) and are filled in by the converter. -/
structure PriceRecord where
  date : Option ℕ
  open_ : Option ℚ
  high : Option ℚ
  low : Option ℚ
  close : Option ℚ
  volume : Option ℤ
  open_eur : Option ℚ
  high_eur : Option ℚ
  low_eur : Option ℚ
  close_eur : Option ℚ
deriving DecidableEq, Repr

/-- Python truthiness of an optional price: None and 0 are falsy, every other
value is truthy. -/
def truthy : Option ℚ → Bool
  | none => false
  | some x => x != 0

/-- Python round(x, 2) on exact rationals: round x * 100 to the nearest
integer and divide by 100. -/
def round2 (x : ℚ) : ℚ :=
  (round (x * 100) : ℚ) / 100

/-- A rate series returned by the external FX source for a requested range:
a finite map from date to rate, as an association list. -/
abbrev RateSeries : Type := List (ℕ × ℚ)

/-- Membership lookup in a fetched rate map (the Python "date_str in rates"
test followed by "rates[date_str]"). -/
def rates_lookup (rates : List (ℕ × ℚ)) (d : ℕ) : Option ℚ :=
  (rates.find? (fun p => p.1 == d)).map (fun p => p.2)

/-- CurrencyConverter.get_historical_exchange_rates with the external
yfinance call made explicit as the hist argument.  Same currency yields the
constant rate 1.0 over every date of the range without an external call; the
two supported pairs USD/EUR and GBP/EUR delegate to the external source; any
other pair yields the empty map. -/
def get_historical_exchange_rates (hist : ℕ → ℕ → List (ℕ × ℚ))
    (from_currency to_currency : String) (start_date end_date : ℕ) :
    List (ℕ × ℚ) :=
  if from_currency == to_currency then
    (List.range (end_date + 1 - start_date)).map (fun i => (start_date + i, 1))
  else if (from_currency == "USD" && to_currency == "EUR")
       || (from_currency == "GBP" && to_currency == "EUR") then
    hist start_date end_date
  else []

/-- Loop body of CurrencyConverter.convert_price_data_batch for one record:
when the record has a date and the fetched rate map contains that date, each
of the four settlement fields is set to the rounded product when the source
field is truthy and to None otherwise; when the date is absent or no rate is
available, all four settlement fields fall back to None. -/
def convert_record (rates : ℕ → Option ℚ) (r : PriceRecord) : PriceRecord :=
  match r.date with
  | some d =>
    match rates d with
    | some rate =>
      { r with
        open_eur := if truthy r.open_ then some (round2 (r.open_.getD 0 * rate)) else none
        high_eur := if truthy r.high then some (round2 (r.high.getD 0 * rate)) else none
        low_eur := if truthy r.low then some (round2 (r.low.getD 0 * rate)) else none
        close_eur := if truthy r.close then some (round2 (r.close.getD 0 * rate)) else none }
    | none =>
      { r with open_eur := none, high_eur := none, low_eur := none, close_eur := none }
  | none =>
    { r with open_eur := none, high_eur := none, low_eur := none, close_eur := none }

/-- Log of the range-fetch calls a conversion issues to the rate provider:
(from currency, to currency, start date, end date) per call. -/
abbrev CallLog : Type := List (String × String × ℕ × ℕ)

/-- CurrencyConverter.convert_price_data_batch, returning the converted batch
together with the log of range-fetch calls issued.  The same-currency branch
copies every source field into its settlement field and issues no call;
otherwise the distinct dates present in the batch are collected and sorted,
an empty date set returns the batch unchanged with no call, and a non-empty
date set issues exactly one range fetch bracketed by the first and last
sorted distinct date before converting each record against the fetched map. -/
def convert_price_data_batch (hist : ℕ → ℕ → List (ℕ × ℚ))
    (price_data : List PriceRecord) (from_currency : String) :
    List PriceRecord × CallLog :=
  if from_currency == "EUR" then
    (price_data.map (fun r =>
      { r with open_eur := r.open_, high_eur := r.high,
               low_eur := r.low, close_eur := r.close }), [])
  else
    let unique_dates :=
      ((price_data.filterMap (fun r => r.date)).dedup).insertionSort (· ≤ ·)
    match unique_dates with
    | [] => (price_data, [])
    | d0 :: rest =>
      let start_date := d0
      let end_date := (d0 :: rest).getLast (List.cons_ne_nil d0 rest)
      let rates := get_historical_exchange_rates hist from_currency "EUR"
        start_date end_date
      (price_data.map (convert_record (rates_lookup rates)),
       [(from_currency, "EUR", start_date, end_date)])

/-! ### Database manager (analytics/database/db_manager.py) -/

/-- One row of the etf_data table (and equally one row of the DataFrame as
read by DatabaseManager.insert_market_data): all price and volume cells
present. -/
structure EtfRow where
  date : ℕ
  open_ : ℚ
  high : ℚ
  low : ℚ
  close : ℚ
  volume : ℤ
deriving DecidableEq, Repr

/-- The dict insert_market_data builds from one DataFrame row before
conversion: every field present, settlement fields absent. -/
def to_price_record (r : EtfRow) : PriceRecord :=
  ⟨some r.date, some r.open_, some r.high, some r.low, some r.close,
   some r.volume, none, none, none, none⟩

/-- DatabaseManager.insert_market_data: build the batch from the DataFrame
rows, run the batch conversion only when a currency is given, is non-empty
and differs from EUR, then store each record (the stored row carries exactly
the record fields, the settlement fields read with dict.get, hence None when
absent).  Returns the stored records and the rate-provider call log. -/
def insert_market_data (hist : ℕ → ℕ → List (ℕ × ℚ)) (data : List EtfRow)
    (currency : Option String) : List PriceRecord × CallLog :=
  let price_data_list := data.map to_price_record
  match currency with
  | some c =>
    if c != "" && c != "EUR" then convert_price_data_batch hist price_data_list c
    else (price_data_list, [])
  | none => (price_data_list, [])

/-- DatabaseManager.get_market_data_range: the rows of the symbol whose date
lies between start and end inclusive, ordered by date ascending. -/
def get_market_data_range (rows : List EtfRow) (start_date end_date : ℕ) :
    List EtfRow :=
  (rows.filter (fun r => start_date ≤ r.date && r.date ≤ end_date)).insertionSort
    (fun a b => a.date ≤ b.date)

/-! ### Trailing 52-week metrics
(EnhancedMarketDataFetcher.calculate_and_store_metrics) -/

/-- The metrics row handed to DatabaseManager.store_52week_metrics. -/
structure Metrics where
  high_52week : ℚ
  low_52week : ℚ
  high_date : ℕ
  low_date : ℕ
deriving DecidableEq, Repr

/-- EnhancedMarketDataFetcher.calculate_and_store_metrics over the stored
rows of one symbol: read the rows of the 365-day window ending today in
ascending date order, return none when the window is empty, otherwise take
the maximal high and minimal low and, for each, the date of the first row of
the window whose value equals the extremum (Python next over the row list). -/
def calculate_and_store_metrics (db_rows : List EtfRow) (today : ℕ) :
    Option Metrics :=
  let year_ago := today - 365
  match get_market_data_range db_rows year_ago today with
  | [] => none
  | r0 :: rest =>
    let high_52week := rest.foldl (fun m r => max m r.high) r0.high
    let low_52week := rest.foldl (fun m r => min m r.low) r0.low
    match (r0 :: rest).find? (fun r => r.high == high_52week),
          (r0 :: rest).find? (fun r => r.low == low_52week) with
    | some hrow, some lrow =>
      some ⟨high_52week, low_52week, hrow.date, lrow.date⟩
    | _, _ => none

/-! ### The ingestion cycle (EnhancedMarketDataFetcher.run_incremental_update) -/

/-- The results dictionary an ingestion cycle returns. -/
structure CycleResults where
  total_symbols : ℕ
  successful : ℕ
  failed : ℕ
  errors : List String
deriving DecidableEq, Repr

/-- Outcome of the active-symbol query at the start of a cycle: the list of
active symbol names, or a raised database error. -/
inductive SymbolsQuery where
  | ok (symbols : List String)
  | raised (msg : String)
deriving DecidableEq, Repr

/-- EnhancedMarketDataFetcher.run_incremental_update.  The body runs under a
try/except that catches every error, appends a Critical error message and
returns the results dictionary, so the Lean return value is always Except.ok:
an exception value would model an error propagating out of the cycle call,
which the source never lets happen.  An empty symbol list appends its message
and returns early; otherwise each symbol is processed in turn, successes and
failures are tallied and each failure appends a message. -/
def run_incremental_update (q : SymbolsQuery) (process : String → Bool) :
    Except String CycleResults :=
  match q with
  | .raised msg => .ok ⟨0, 0, 0, ["Critical error: " ++ msg]⟩
  | .ok symbols =>
    if symbols = [] then .ok ⟨0, 0, 0, ["No active symbols found"]⟩
    else
      let tally := symbols.foldl
        (fun (acc : ℕ × ℕ × List String) name =>
          if process name then (acc.1 + 1, acc.2.1, acc.2.2)
          else (acc.1, acc.2.1 + 1, acc.2.2 ++ ["Failed to process " ++ name]))
        (0, 0, [])
      .ok ⟨symbols.length, tally.1, tally.2.1, tally.2.2⟩

/-! ### Shared concrete test fixtures -/

/-- A one-row series that passes every check of the quality gate. -/
def good_df : List Bar := [⟨some 10, some 12, some 9, some 11, some 100⟩]

/-! ### Claims -/

/-- C1: for every instrument the ingestion cycle computes the fetch start
date as the stored watermark (max stored bar date) plus one day when a
watermark exists, and as the fixed epoch start date 2021-12-01 when no
watermark exists; when the computed start date is strictly after the current
date the fetch is skipped and the instrument is reported successful as
already current. -/
theorem c1_watermark_start_date (stored_dates : List ℕ) (today : ℕ)
    (provider : ℕ → AttemptOutcome) :
    (∀ w, get_latest_data_date stored_dates = some w →
      (process_symbol_incremental stored_dates today provider).start_date = w + 1 ∧
      (w + 1 > today →
        process_symbol_incremental stored_dates today provider
          = ⟨w + 1, false, false, true⟩)) ∧
    (get_latest_data_date stored_dates = none →
      (process_symbol_incremental stored_dates today provider).start_date
        = toordinal 2021 12 1) := by
  refine ⟨fun w hw => ⟨?_, fun hgt => ?_⟩, fun hn => ?_⟩
  · unfold process_symbol_incremental
    rw [hw]
    dsimp only
    split
    · rfl
    · split <;> rfl
  · unfold process_symbol_incremental
    rw [hw]
    dsimp only
    rw [if_pos hgt]
  · unfold process_symbol_incremental
    rw [hn]
    dsimp only
    unfold epoch_start
    split <;> rfl

/-- Witness for C1 at concrete inputs: a watermark of 2021-12-14 on a clock
date of 2021-12-14 yields the start date 2021-12-15 and an immediate success
with no fetch, and an absent watermark yields the epoch start 2021-12-01. -/
theorem c1_watermark_start_date_witness :
    process_symbol_incremental [toordinal 2021 12 14] (toordinal 2021 12 14)
        (fun _ => .returned []) = ⟨toordinal 2021 12 15, false, false, true⟩ ∧
    (process_symbol_incremental [] (toordinal 2021 12 14)
        (fun _ => .returned [])).start_date = toordinal 2021 12 1 := by
  constructor
  · have h := (c1_watermark_start_date [toordinal 2021 12 14] (toordinal 2021 12 14)
      (fun _ => .returned [])).1 (toordinal 2021 12 14) (by decide)
    have h2 := h.2 (by decide)
    rw [h2]
    decide
  · exact (c1_watermark_start_date [] (toordinal 2021 12 14)
      (fun _ => .returned [])).2 (by decide)

/-- C5: the data quality gate passes a series exactly when the collected
issue list is empty; an empty series fails immediately with the single issue
No data received and no further checks; a non-empty series collects the
issues of all four checks in order without short-circuiting; and any
non-empty issue list fails the gate as a whole. -/
theorem c5_quality_gate (df : List Bar) :
    ((validate_data_quality df).1 = true ↔ (validate_data_quality df).2 = []) ∧
    (df = [] → validate_data_quality df = (false, ["No data received"])) ∧
    (df ≠ [] → (validate_data_quality df).2
      = missing_issues df ++ negative_issues df ++ extreme_issues df
        ++ volume_issues df) ∧
    ((validate_data_quality df).2 ≠ [] → (validate_data_quality df).1 = false) := by
  unfold validate_data_quality
  by_cases h : df = []
  · subst h
    refine ⟨by simp, fun _ => rfl, fun hne => absurd rfl hne, fun _ => rfl⟩
  · rw [if_neg h]
    dsimp only
    refine ⟨by simp, fun he => absurd he h, fun _ => rfl, fun hne => by simp_all⟩

/-- Witness for C5: the empty series fails at once, and a concrete clean
one-row series passes with the four checks all collected empty. -/
theorem c5_quality_gate_witness :
    validate_data_quality [] = (false, ["No data received"]) ∧
    (validate_data_quality good_df).1 = true ∧
    (validate_data_quality good_df).2
      = missing_issues good_df ++ negative_issues good_df ++ extreme_issues good_df
        ++ volume_issues good_df := by
  refine ⟨(c5_quality_gate []).2.1 rfl, ?_, (c5_quality_gate good_df).2.2.1 (by decide)⟩
  exact (c5_quality_gate good_df).1.mpr (by decide)

/-- C6 counterexample: with three attempts available and the provider
returning an empty series on the first attempt but a valid series on every
later attempt, the retry loop stops after the first attempt and reports
failure, whereas a raised transport error on the first attempt is retried and
succeeds on the second attempt.  The empty-series outcome therefore does
terminate the retry loop by itself, contrary to the claim. -/
theorem c6_cex_empty_not_retried :
    fetch_market_data_with_retry
        (fun n => if n = 0 then .returned [] else .returned good_df) = (none, 1) ∧
    fetch_market_data_with_retry
        (fun n => if n = 0 then .raised else .returned good_df)
      = (some good_df, 2) := by
  decide

/-- C6 amended: a fetch attempt that raises a transport error or returns a
non-empty series failing the quality gate is retried, up to max_retries = 3
attempts with a fixed retry_delay = 60 second inter-attempt delay, before the
instrument is marked failed; an attempt that returns an empty series instead
terminates the loop immediately with failure after that single attempt. -/
theorem c6_retry_semantics_amended (provider : ℕ → AttemptOutcome)
    (attempt fuel : ℕ) (df : List Bar) :
    max_retries = 3 ∧ retry_delay = 60 ∧
    (provider attempt = .returned [] →
      fetch_retry_go provider attempt (fuel + 1) = (none, 1)) ∧
    (provider attempt = .raised →
      fetch_retry_go provider attempt (fuel + 1)
        = ((fetch_retry_go provider (attempt + 1) fuel).1,
           (fetch_retry_go provider (attempt + 1) fuel).2 + 1)) ∧
    (provider attempt = .returned df → df ≠ [] →
      (validate_data_quality df).1 = false →
      fetch_retry_go provider attempt (fuel + 1)
        = ((fetch_retry_go provider (attempt + 1) fuel).1,
           (fetch_retry_go provider (attempt + 1) fuel).2 + 1)) ∧
    (provider attempt = .returned df → df ≠ [] →
      (validate_data_quality df).1 = true →
      fetch_retry_go provider attempt (fuel + 1) = (some df, 1)) := by
  refine ⟨rfl, rfl, fun h => ?_, fun h => ?_, fun h hne hq => ?_, fun h hne hq => ?_⟩
  · simp [fetch_retry_go, h]
  · simp [fetch_retry_go, h]
  · simp [fetch_retry_go, h, hne, hq]
  · simp [fetch_retry_go, h, hne, hq]

/-- Witness for C6 amended: three raised attempts exhaust the bound with
three attempts consumed, while a first empty return consumes one. -/
theorem c6_retry_semantics_witness :
    fetch_retry_go (fun _ => .raised) 0 3 = (none, 3) ∧
    fetch_retry_go (fun _ => .returned []) 0 3 = (none, 1) := by
  constructor
  · have h1 := (c6_retry_semantics_amended (fun _ => .raised) 0 2 []).2.2.2.1 rfl
    have h2 := (c6_retry_semantics_amended (fun _ => .raised) 1 1 []).2.2.2.1 rfl
    have h3 := (c6_retry_semantics_amended (fun _ => .raised) 2 0 []).2.2.2.1 rfl
    rw [h1, h2, h3]
    rfl
  · exact (c6_retry_semantics_amended (fun _ => .returned []) 0 2 []).2.2.1 rfl

/-- C7 counterexample: an instrument whose latest stored bar is dated today
(watermark 5, clock date 5) is reported successful with no fetch call, but
the trailing metrics are not recomputed (metrics_computed is false), contrary
to the claim that they still are. -/
theorem c7_cex_skip_no_metrics :
    process_symbol_incremental [5] 5 (fun _ => .returned good_df)
      = ⟨6, false, false, true⟩ := by
  decide

/-- C7 amended: for every instrument whose computed start date (watermark
plus one day) is strictly after today, the cycle skips the fetch call
entirely and reports the instrument successful immediately, without
recomputing or storing the trailing metrics. -/
theorem c7_skip_amended (stored_dates : List ℕ) (today w : ℕ)
    (provider : ℕ → AttemptOutcome)
    (hw : get_latest_data_date stored_dates = some w) (hgt : w + 1 > today) :
    process_symbol_incremental stored_dates today provider
      = ⟨w + 1, false, false, true⟩ := by
  unfold process_symbol_incremental
  rw [hw]
  dsimp only
  rw [if_pos hgt]

/-- Witness for C7 amended at the concrete watermark 5 and clock date 5. -/
theorem c7_skip_amended_witness :
    process_symbol_incremental [5] 5 (fun _ => .raised) = ⟨6, false, false, true⟩ :=
  c7_skip_amended [5] 5 5 (fun _ => .raised) (by decide) (by decide)

/-- C9 counterexample: a cycle whose active-symbol query returns no symbols
returns the results value with the message folded into its errors list; a
raised query error is likewise caught and returned as a Critical error
message.  In neither case does an error propagate out of the cycle call, so
the claim that the error is raised to the orchestrator is false. -/
theorem c9_cex_returns_not_raises :
    run_incremental_update (.ok []) (fun _ => true)
      = .ok ⟨0, 0, 0, ["No active symbols found"]⟩ ∧
    run_incremental_update (.raised "db error") (fun _ => true)
      = .ok ⟨0, 0, 0, ["Critical error: db error"]⟩ := by
  constructor <;> rfl

/-- C9 amended: when the active-symbol query returns no instruments the
cycle returns early with zero tallies and the message No active symbols
found in the returned errors list, when the query itself raises the error is
caught and returned as a Critical error message, and for every query outcome
the cycle returns a results value rather than raising. -/
theorem c9_structural_errors_amended (process : String → Bool) (msg : String)
    (symbols : List String) :
    run_incremental_update (.ok []) process
      = .ok ⟨0, 0, 0, ["No active symbols found"]⟩ ∧
    run_incremental_update (.raised msg) process
      = .ok ⟨0, 0, 0, ["Critical error: " ++ msg]⟩ ∧
    ∃ r, run_incremental_update (.ok symbols) process = .ok r := by
  refine ⟨rfl, rfl, ?_⟩
  show ∃ r, (if symbols = [] then
      (.ok ⟨0, 0, 0, ["No active symbols found"]⟩ : Except String CycleResults)
    else
      let tally := symbols.foldl
        (fun (acc : ℕ × ℕ × List String) name =>
          if process name then (acc.1 + 1, acc.2.1, acc.2.2)
          else (acc.1, acc.2.1 + 1, acc.2.2 ++ ["Failed to process " ++ name]))
        (0, 0, [])
      .ok ⟨symbols.length, tally.1, tally.2.1, tally.2.2⟩) = .ok r
  by_cases hs : symbols = []
  · rw [if_pos hs]
    exact ⟨_, rfl⟩
  · rw [if_neg hs]
    exact ⟨_, rfl⟩

/-! ### Order facts about sorted row lists, shared by the range and batch
claims -/

instance : IsTotal EtfRow (fun a b => a.date ≤ b.date) :=
  ⟨fun a b => Nat.le_total a.date b.date⟩

instance : IsTrans EtfRow (fun a b => a.date ≤ b.date) :=
  ⟨fun _ _ _ => Nat.le_trans⟩

/-- In a list sorted by a natural-number key, the key of every element is at most
the key of the last element. -/
lemma le_getLast_of_sorted {α : Type} (f : α → ℕ) :
    ∀ (l : List α), l.Sorted (fun a b => f a ≤ f b) → ∀ (hne : l ≠ []) (x : α),
      x ∈ l → f x ≤ f (l.getLast hne)
  | [], _, hne, _, _ => absurd rfl hne
  | [a], _, _, x, hx => by
    rw [List.mem_singleton] at hx
    subst hx
    exact le_refl _
  | a :: b :: t, hs, _, x, hx => by
    rw [List.getLast_cons (List.cons_ne_nil b t)]
    rcases List.mem_cons.mp hx with rfl | hmem
    · exact List.rel_of_sorted_cons hs _ (List.getLast_mem (List.cons_ne_nil b t))
    · exact le_getLast_of_sorted f (b :: t) hs.of_cons (List.cons_ne_nil b t) x hmem

/-- In a list sorted by a natural-number key, the element found by find? has
a key at most the key of every element satisfying the predicate: the first
match is key-minimal among all matches. -/
lemma find?_first_min {α : Type} (f : α → ℕ) (p : α → Bool) (l : List α) :
    l.Sorted (fun a b => f a ≤ f b) → ∀ a, l.find? p = some a →
      ∀ b ∈ l, p b = true → f a ≤ f b := by
  induction l with
  | nil =>
    intro _ a h
    simp at h
  | cons x xs ih =>
    intro hs a h b hb hpb
    rw [List.find?_cons] at h
    cases hpx : p x
    · rw [hpx] at h
      simp only at h
      rcases List.mem_cons.mp hb with rfl | hmem
      · rw [hpb] at hpx
        cases hpx
      · exact ih hs.of_cons a h b hmem hpb
    · rw [hpx] at h
      simp only [Option.some.injEq] at h
      subst h
      rcases List.mem_cons.mp hb with rfl | hmem
      · exact le_refl _
      · exact List.rel_of_sorted_cons hs b hmem

/-- C2: for every batch whose source currency differs from the settlement
currency and which contains at least one dated record, the conversion issues
exactly one range-fetch call to the rate provider, over the range bracketed
by the minimum and maximum distinct dates present in the batch, never one
call per record. -/
theorem c2_single_range_fetch (hist : ℕ → ℕ → List (ℕ × ℚ))
    (price_data : List PriceRecord) (from_currency : String)
    (hne : from_currency ≠ "EUR")
    (hd : price_data.filterMap (fun r => r.date) ≠ []) :
    ∃ s e, (convert_price_data_batch hist price_data from_currency).2
        = [(from_currency, "EUR", s, e)] ∧
      s ∈ price_data.filterMap (fun r => r.date) ∧
      e ∈ price_data.filterMap (fun r => r.date) ∧
      ∀ d ∈ price_data.filterMap (fun r => r.date), s ≤ d ∧ d ≤ e := by
  unfold convert_price_data_batch
  rw [if_neg (by simpa using hne)]
  set dates := price_data.filterMap (fun r => r.date) with hdates
  cases hu : dates.dedup.insertionSort (· ≤ ·) with
  | nil =>
    exfalso
    have hperm := List.perm_insertionSort (· ≤ · : ℕ → ℕ → Prop) dates.dedup
    rw [hu] at hperm
    exact hd ((List.dedup_eq_nil dates).mp hperm.nil_eq.symm)
  | cons d0 rest =>
    have hsorted : (d0 :: rest).Sorted (· ≤ ·) := by
      rw [← hu]
      exact List.sorted_insertionSort _ _
    have hperm : (d0 :: rest).Perm dates.dedup := by
      rw [← hu]
      exact List.perm_insertionSort _ _
    have hmem_iff : ∀ d, d ∈ d0 :: rest ↔ d ∈ dates := by
      intro d
      rw [hperm.mem_iff, List.mem_dedup]
    refine ⟨d0, (d0 :: rest).getLast (List.cons_ne_nil d0 rest), ?_, ?_, ?_, ?_⟩
    · rfl
    · exact (hmem_iff d0).mp (List.mem_cons_self d0 rest)
    · exact (hmem_iff _).mp (List.getLast_mem (List.cons_ne_nil d0 rest))
    · intro d hdm
      have hd' : d ∈ d0 :: rest := (hmem_iff d).mpr hdm
      constructor
      · rcases List.mem_cons.mp hd' with rfl | hmem
        · exact le_refl _
        · exact List.rel_of_sorted_cons hsorted d hmem
      · exact le_getLast_of_sorted (fun n => n) (d0 :: rest) hsorted
          (List.cons_ne_nil d0 rest) d hd'

/-- A three-record batch over the unsorted distinct dates 20, 10, 30. -/
def batch3 : List PriceRecord :=
  [⟨some 20, some 1, some 2, some 1, some 2, some 5, none, none, none, none⟩,
   ⟨some 10, some 1, some 2, some 1, some 2, some 5, none, none, none, none⟩,
   ⟨some 30, some 1, some 2, some 1, some 2, some 5, none, none, none, none⟩]

/-- Witness for C2: converting the concrete three-record USD batch issues
exactly one range-fetch call, and that call brackets 10 and 30. -/
theorem c2_single_range_fetch_witness :
    (∃ s e, (convert_price_data_batch (fun _ _ => []) batch3 "USD").2
        = [("USD", "EUR", s, e)] ∧
      s ∈ batch3.filterMap (fun r => r.date) ∧
      e ∈ batch3.filterMap (fun r => r.date) ∧
      ∀ d ∈ batch3.filterMap (fun r => r.date), s ≤ d ∧ d ≤ e) ∧
    (convert_price_data_batch (fun _ _ => []) batch3 "USD").2
      = [("USD", "EUR", 10, 30)] := by
  constructor
  · exact c2_single_range_fetch (fun _ _ => []) batch3 "USD" (by decide) (by decide)
  · decide

/-- C8 counterexample: two bars in the window share the extreme high 10 on
dates 100 and 101, the clock date is 101, and the stored high date is 100,
the tied date farthest from today, not 101 as the claim states. -/
theorem c8_cex_tie_earliest :
    calculate_and_store_metrics
        [⟨100, 1, 10, 5, 2, 1⟩, ⟨101, 1, 10, 4, 2, 1⟩] 101
      = some ⟨10, 4, 100, 101⟩ ∧
    ([⟨100, 1, 10, 5, 2, 1⟩, ⟨101, 1, 10, 4, 2, 1⟩] : List EtfRow).map EtfRow.high
      = [10, 10] := by
  decide

/-- C8 amended: the stored occurrence date of the trailing high (and of the
trailing low) belongs to a window bar attaining the extremum and is the
earliest date among the bars attaining it, because the window rows are
scanned in ascending date order and the first match is taken. -/
theorem c8_first_match_amended (db_rows : List EtfRow) (today : ℕ) (m : Metrics)
    (h : calculate_and_store_metrics db_rows today = some m) :
    (∃ r ∈ get_market_data_range db_rows (today - 365) today,
        r.high = m.high_52week ∧ r.date = m.high_date) ∧
    (∀ r ∈ get_market_data_range db_rows (today - 365) today,
        r.high = m.high_52week → m.high_date ≤ r.date) ∧
    (∃ r ∈ get_market_data_range db_rows (today - 365) today,
        r.low = m.low_52week ∧ r.date = m.low_date) ∧
    (∀ r ∈ get_market_data_range db_rows (today - 365) today,
        r.low = m.low_52week → m.low_date ≤ r.date) := by
  have hsorted : (get_market_data_range db_rows (today - 365) today).Sorted
      (fun a b => a.date ≤ b.date) := by
    unfold get_market_data_range
    exact List.sorted_insertionSort _ _
  unfold calculate_and_store_metrics at h
  dsimp only at h
  cases hy : get_market_data_range db_rows (today - 365) today with
  | nil =>
    rw [hy] at h
    cases h
  | cons r0 rest =>
    rw [hy] at h hsorted
    dsimp only at h
    cases hf : (r0 :: rest).find? (fun r => r.high == rest.foldl (fun m r => max m r.high) r0.high) with
    | none =>
      rw [hf] at h
      cases h
    | some hrow =>
      cases hl : (r0 :: rest).find? (fun r => r.low == rest.foldl (fun m r => min m r.low) r0.low) with
      | none =>
        rw [hf, hl] at h
        cases h
      | some lrow =>
        rw [hf, hl] at h
        dsimp only at h
        rw [Option.some.injEq] at h
        subst h
        have hbh := @List.find?_some EtfRow
          (fun r => r.high == rest.foldl (fun m r => max m r.high) r0.high)
          hrow (r0 :: rest) hf
        have hbl := @List.find?_some EtfRow
          (fun r => r.low == rest.foldl (fun m r => min m r.low) r0.low)
          lrow (r0 :: rest) hl
        refine ⟨⟨hrow, List.mem_of_find?_eq_some hf, ?_, rfl⟩, ?_,
          ⟨lrow, List.mem_of_find?_eq_some hl, ?_, rfl⟩, ?_⟩
        · exact eq_of_beq hbh
        · intro r hr hrh
          exact find?_first_min EtfRow.date _ (r0 :: rest) hsorted hrow hf r hr
            (beq_iff_eq.mpr hrh)
        · exact eq_of_beq hbl
        · intro r hr hrl
          exact find?_first_min EtfRow.date _ (r0 :: rest) hsorted lrow hl r hr
            (beq_iff_eq.mpr hrl)

/-- Witness for C8 amended at the concrete tied window: the stored high date
100 is the minimum of the tied dates 100 and 101, and the stored low date is
101. -/
theorem c8_first_match_witness :
    (∃ r ∈ get_market_data_range
        [⟨100, 1, 10, 5, 2, 1⟩, ⟨101, 1, 10, 4, 2, 1⟩] (101 - 365) 101,
        r.high = (10 : ℚ) ∧ r.date = 100) ∧
    (∀ r ∈ get_market_data_range
        [⟨100, 1, 10, 5, 2, 1⟩, ⟨101, 1, 10, 4, 2, 1⟩] (101 - 365) 101,
        r.high = (10 : ℚ) → 100 ≤ r.date) ∧
    (∃ r ∈ get_market_data_range
        [⟨100, 1, 10, 5, 2, 1⟩, ⟨101, 1, 10, 4, 2, 1⟩] (101 - 365) 101,
        r.low = (4 : ℚ) ∧ r.date = 101) ∧
    (∀ r ∈ get_market_data_range
        [⟨100, 1, 10, 5, 2, 1⟩, ⟨101, 1, 10, 4, 2, 1⟩] (101 - 365) 101,
        r.low = (4 : ℚ) → 101 ≤ r.date) :=
  c8_first_match_amended [⟨100, 1, 10, 5, 2, 1⟩, ⟨101, 1, 10, 4, 2, 1⟩] 101
    ⟨10, 4, 100, 101⟩ (by decide)

/-! ### Record-level facts about the converter, shared by the currency
claims -/

/-- Converting a record never changes its source-currency fields: only the
four settlement fields are updated. -/
lemma convert_record_sources (rates : ℕ → Option ℚ) (q : PriceRecord) :
    (convert_record rates q).open_ = q.open_ ∧ (convert_record rates q).high = q.high ∧
    (convert_record rates q).low = q.low ∧ (convert_record rates q).close = q.close := by
  unfold convert_record
  cases hqd : q.date with
  | none => exact ⟨rfl, rfl, rfl, rfl⟩
  | some d =>
    dsimp only
    cases hrd : rates d with
    | none => exact ⟨rfl, rfl, rfl, rfl⟩
    | some rate => exact ⟨rfl, rfl, rfl, rfl⟩

/-- A record whose four source fields are all truthy converts to a record
whose settlement fields are all populated (rate available) or all null. -/
lemma convert_record_all_or_none (rates : ℕ → Option ℚ) (q : PriceRecord)
    (ho : truthy q.open_ = true) (hh : truthy q.high = true)
    (hl : truthy q.low = true) (hc : truthy q.close = true) :
    ((convert_record rates q).open_eur.isSome ∧ (convert_record rates q).high_eur.isSome ∧
      (convert_record rates q).low_eur.isSome ∧ (convert_record rates q).close_eur.isSome) ∨
    ((convert_record rates q).open_eur = none ∧ (convert_record rates q).high_eur = none ∧
      (convert_record rates q).low_eur = none ∧ (convert_record rates q).close_eur = none) := by
  unfold convert_record
  cases hqd : q.date with
  | none => exact Or.inr ⟨rfl, rfl, rfl, rfl⟩
  | some d =>
    dsimp only
    cases hrd : rates d with
    | none => exact Or.inr ⟨rfl, rfl, rfl, rfl⟩
    | some rate =>
      left
      refine ⟨?_, ?_, ?_, ?_⟩ <;> simp [ho, hh, hl, hc]

/-- A record built straight from a row (and not converted) has all four
settlement fields null. -/
lemma to_price_record_eur_none {rows : List EtfRow} {r : PriceRecord}
    (hr : r ∈ rows.map to_price_record) :
    r.open_eur = none ∧ r.high_eur = none ∧ r.low_eur = none ∧ r.close_eur = none := by
  rcases List.mem_map.mp hr with ⟨row, _, rfl⟩
  exact ⟨rfl, rfl, rfl, rfl⟩

/-- C3 counterexample: ingesting a concrete EUR-denominated bar through the
insert path stores a null open_eur next to the source open price 10 — the
stored settlement field does not equal the source field — and issues no rate
call. -/
theorem c3_cex_eur_insert_nulls :
    ((insert_market_data (fun _ _ => []) [⟨738125, 10, 12, 9, 11, 100⟩]
        (some "EUR")).1.map (fun r => (r.open_, r.open_eur)))
      = [(some 10, none)] ∧
    (insert_market_data (fun _ _ => []) [⟨738125, 10, 12, 9, 11, 100⟩]
        (some "EUR")).2 = [] ∧
    some (10 : ℚ) ≠ (none : Option ℚ) := by
  refine ⟨by decide, by decide, by simp⟩

/-- C3 amended: the same-currency branch of the batch converter sets every
settlement field equal to its source field exactly and issues no rate call,
but the ingestion insert path skips the converter entirely when the declared
currency is EUR, so each bar it stores has all four settlement fields null;
in both cases no external rate call is made. -/
theorem c3_same_currency_amended (hist : ℕ → ℕ → List (ℕ × ℚ))
    (price_data : List PriceRecord) (rows : List EtfRow) :
    convert_price_data_batch hist price_data "EUR"
      = (price_data.map (fun r =>
          { r with open_eur := r.open_, high_eur := r.high,
                   low_eur := r.low, close_eur := r.close }), []) ∧
    (insert_market_data hist rows (some "EUR")).2 = [] ∧
    ((insert_market_data hist rows (some "EUR")).1.map
        (fun r => (r.open_eur, r.high_eur, r.low_eur, r.close_eur)))
      = rows.map (fun _ => (none, none, none, none)) := by
  refine ⟨?_, ?_, ?_⟩
  · rfl
  · rfl
  · show ((rows.map to_price_record).map
        (fun r => (r.open_eur, r.high_eur, r.low_eur, r.close_eur)))
      = rows.map (fun _ => (none, none, none, none))
    rw [List.map_map]
    rfl

/-- The concrete rate source used by the mixed-currency fixtures: the single
rate 2 on date 738125. -/
def usd_hist : ℕ → ℕ → List (ℕ × ℚ) := fun _ _ => [(738125, 2)]

/-- C4 counterexample: a USD bar with a zero open price and positive high,
low and close, converted with a rate available for its date, is stored with
a null open_eur next to populated high_eur, low_eur and close_eur — a
bar that is only half normalized. -/
theorem c4_cex_half_normalized :
    ((insert_market_data usd_hist [⟨738125, 0, 12, 9, 11, 100⟩]
        (some "USD")).1.map
        (fun r => (r.open_eur.isSome, r.high_eur.isSome, r.low_eur.isSome,
          r.close_eur.isSome)))
      = [(false, true, true, true)] := by
  decide

/-- C4 amended: every bar the insert path stores whose four source price
fields are all truthy (present and nonzero) has its settlement-currency
fields either all populated or all null; a null or zero source price field
instead yields a null settlement field that can sit next to populated
ones. -/
theorem c4_all_or_none_amended (hist : ℕ → ℕ → List (ℕ × ℚ))
    (rows : List EtfRow) (currency : Option String) (r : PriceRecord)
    (hr : r ∈ (insert_market_data hist rows currency).1)
    (ho : truthy r.open_ = true) (hh : truthy r.high = true)
    (hl : truthy r.low = true) (hc : truthy r.close = true) :
    (r.open_eur.isSome ∧ r.high_eur.isSome ∧ r.low_eur.isSome ∧
      r.close_eur.isSome) ∨
    (r.open_eur = none ∧ r.high_eur = none ∧ r.low_eur = none ∧
      r.close_eur = none) := by
  unfold insert_market_data at hr
  dsimp only at hr
  cases currency with
  | none => exact Or.inr (to_price_record_eur_none hr)
  | some c =>
    dsimp only at hr
    by_cases hg : (c != "" && c != "EUR") = true
    · rw [if_pos hg] at hr
      have hcne : c ≠ "EUR" := bne_iff_ne.mp ((Bool.and_eq_true _ _).mp hg).2
      unfold convert_price_data_batch at hr
      rw [if_neg (by simpa using hcne)] at hr
      dsimp only at hr
      cases hu : ((rows.map to_price_record).filterMap
          (fun r => r.date)).dedup.insertionSort (· ≤ ·) with
      | nil =>
        rw [hu] at hr
        exact Or.inr (to_price_record_eur_none hr)
      | cons d0 rest =>
        rw [hu] at hr
        dsimp only at hr
        rw [List.map_map] at hr
        rcases List.mem_map.mp hr with ⟨row, _, rfl⟩
        have hsrc := convert_record_sources
          (rates_lookup (get_historical_exchange_rates hist c "EUR" d0
            ((d0 :: rest).getLast (List.cons_ne_nil d0 rest))))
          (to_price_record row)
        rw [Function.comp_apply] at ho hh hl hc ⊢
        rw [hsrc.1] at ho
        rw [hsrc.2.1] at hh
        rw [hsrc.2.2.1] at hl
        rw [hsrc.2.2.2] at hc
        exact convert_record_all_or_none _ (to_price_record row) ho hh hl hc
    · rw [if_neg hg] at hr
      exact Or.inr (to_price_record_eur_none hr)

/-- Witness for C4 amended: the record built from a concrete bar with all
prices nonzero, ingested with no declared currency, satisfies the
all-or-none property. -/
theorem c4_all_or_none_witness :
    ((to_price_record ⟨738125, 10, 12, 9, 11, 100⟩).open_eur.isSome ∧
      (to_price_record ⟨738125, 10, 12, 9, 11, 100⟩).high_eur.isSome ∧
      (to_price_record ⟨738125, 10, 12, 9, 11, 100⟩).low_eur.isSome ∧
      (to_price_record ⟨738125, 10, 12, 9, 11, 100⟩).close_eur.isSome) ∨
    ((to_price_record ⟨738125, 10, 12, 9, 11, 100⟩).open_eur = none ∧
      (to_price_record ⟨738125, 10, 12, 9, 11, 100⟩).high_eur = none ∧
      (to_price_record ⟨738125, 10, 12, 9, 11, 100⟩).low_eur = none ∧
      (to_price_record ⟨738125, 10, 12, 9, 11, 100⟩).close_eur = none) :=
  c4_all_or_none_amended (fun _ _ => []) [⟨738125, 10, 12, 9, 11, 100⟩] none
    (to_price_record ⟨738125, 10, 12, 9, 11, 100⟩)
    (by decide) (by decide) (by decide) (by decide) (by decide)

/-- C10: in batch conversion with a rate available for the date of a record, each
settlement field is null exactly when the corresponding source field is null
or equals zero — the source value is tested for truthiness, not for
null. -/
theorem c10_truthiness_null (rates : ℕ → Option ℚ) (r : PriceRecord) (d : ℕ)
    (rate : ℚ) (hd : r.date = some d) (hr : rates d = some rate) :
    ((convert_record rates r).open_eur = none ↔ (r.open_ = none ∨ r.open_ = some 0)) ∧
    ((convert_record rates r).high_eur = none ↔ (r.high = none ∨ r.high = some 0)) ∧
    ((convert_record rates r).low_eur = none ↔ (r.low = none ∨ r.low = some 0)) ∧
    ((convert_record rates r).close_eur = none ↔ (r.close = none ∨ r.close = some 0)) := by
  have key : ∀ (o : Option ℚ),
      ((if truthy o then some (round2 (o.getD 0 * rate)) else none) = none
        ↔ (o = none ∨ o = some 0)) := by
    intro o
    rcases o with _ | v
    · simp [truthy]
    · by_cases hv : v = 0
      · subst hv
        simp [truthy]
      · simp [truthy, hv]
  unfold convert_record
  rw [hd]
  dsimp only
  rw [hr]
  exact ⟨key r.open_, key r.high, key r.low, key r.close⟩

/-- The concrete zero-open record of the C10 scenario. -/
def zero_open_rec : PriceRecord :=
  ⟨some 738125, some 0, some 12, some 9, some 11, some 100,
   none, none, none, none⟩

/-- Witness for C10: with the rate 2 available, the zero open price yields a
null open_eur while high_eur, low_eur and close_eur are populated. -/
theorem c10_truthiness_null_witness :
    (convert_record (fun _ => some 2) zero_open_rec).open_eur = none ∧
    (convert_record (fun _ => some 2) zero_open_rec).high_eur.isSome = true ∧
    (convert_record (fun _ => some 2) zero_open_rec).low_eur.isSome = true ∧
    (convert_record (fun _ => some 2) zero_open_rec).close_eur.isSome = true := by
  have h := c10_truthiness_null (fun _ => some 2) zero_open_rec 738125 2 rfl rfl
  refine ⟨h.1.mpr (Or.inr rfl), ?_, ?_, ?_⟩
  · refine Option.isSome_iff_ne_none.mpr (fun hn => ?_)
    rcases h.2.1.mp hn with h1 | h1 <;> exact absurd h1 (by decide)
  · refine Option.isSome_iff_ne_none.mpr (fun hn => ?_)
    rcases h.2.2.1.mp hn with h1 | h1 <;> exact absurd h1 (by decide)
  · refine Option.isSome_iff_ne_none.mpr (fun hn => ?_)
    rcases h.2.2.2.mp hn with h1 | h1 <;> exact absurd h1 (by decide)

end StockMarket
